import Mathlib

/-!
Verification of the packet-decoding engine of darkstat (src/decode.c).

The decode functions are shallowly embedded: a captured frame is a list of
bytes (`List Nat`, each entry a byte value), the `struct pktsummary` that the
decoders fill out becomes the `Pktsummary` structure, `verbosef` diagnostics
become a list of `Log` events, and calls to the accounting sink `acct_for`
become a list of submitted summaries.  Multi-byte header fields read through
`ntohs` on a struct overlay become big-endian reads of the corresponding
byte offsets.

Header-length constants and the `pktsummary` / `addr` types live in decode.h
and addr.h, which are not part of the sources available here; their values
are modelled from the spec (fixed standard header sizes, tagged address
union, non-accounting sentinel).  Constants taken from system headers
(DLT_*, ETHERTYPE_*, AF_*, IPPROTO_*, TH_*) use the standard Linux values,
matching the non-NetBSD, DLT_LINUX_SLL-defined build of decode.c.
-/

namespace Darkstat

/-- Modelled from the spec: header-length constants of decode.h.
Ethernet header is 14 bytes (ETHER_HDR_LEN from net/ethernet.h, and the
fallback definition in decode.c itself). -/
def ETHER_HDR_LEN : Nat := 14

/-- Modelled from the spec: null/loopback link header is the 4-byte
address-family value. -/
def NULL_HDR_LEN : Nat := 4

/-- Modelled from the spec: PPP link header, protocol id at byte offsets
2 and 3, 4 bytes in total. -/
def PPP_HDR_LEN : Nat := 4

/-- Modelled from the spec: PPPoE header is 1-byte version/type, 1-byte code,
2-byte session id, 2-byte length (6 bytes), followed by the 2-byte
PPP-protocol sub-field, 8 bytes in total (decode.c reads bytes 6 and 7 and
then strips PPPOE_HDR_LEN). -/
def PPPOE_HDR_LEN : Nat := 8

/-- Modelled from the spec: FDDI link header length of decode.h. -/
def FDDI_HDR_LEN : Nat := 21

/-- Modelled from the spec: Linux cooked-capture header is 2-byte packet
type, 2-byte device type, 2-byte address length, 8-byte address and 2-byte
ethertype, 16 bytes in total (decode.c reads the ethertype at offset 14). -/
def SLL_HDR_LEN : Nat := 16

/-- Modelled from the spec: raw IP link type has no link header. -/
def RAW_HDR_LEN : Nat := 0

/-- Modelled from the spec: fixed IPv4 header size, sizeof(struct ip). -/
def IP_HDR_LEN : Nat := 20

/-- Modelled from the spec: fixed IPv6 header size, sizeof(struct ip6_hdr). -/
def IPV6_HDR_LEN : Nat := 40

/-- Modelled from the spec: fixed TCP header size, sizeof(struct tcphdr). -/
def TCP_HDR_LEN : Nat := 20

/-- Modelled from the spec: fixed UDP header size, sizeof(struct udphdr). -/
def UDP_HDR_LEN : Nat := 8

/-- Modelled from the spec: the reserved non-accounting sentinel protocol
value IPPROTO_INVALID of decode.h. -/
def IPPROTO_INVALID : Nat := 254

/-- IPPROTO_TCP from netinet/in.h. -/
def IPPROTO_TCP : Nat := 6

/-- IPPROTO_UDP from netinet/in.h. -/
def IPPROTO_UDP : Nat := 17

/-- IPPROTO_ICMP from netinet/in.h. -/
def IPPROTO_ICMP : Nat := 1

/-- IPPROTO_ICMPV6 from netinet/in.h. -/
def IPPROTO_ICMPV6 : Nat := 58

/-- IPPROTO_AH from netinet/in.h. -/
def IPPROTO_AH : Nat := 51

/-- IPPROTO_ESP from netinet/in.h. -/
def IPPROTO_ESP : Nat := 50

/-- IPPROTO_OSPF from netinet/in.h. -/
def IPPROTO_OSPF : Nat := 89

/-- ETHERTYPE_IP from net/ethernet.h. -/
def ETHERTYPE_IP : Nat := 0x0800

/-- ETHERTYPE_IPV6 from net/ethernet.h. -/
def ETHERTYPE_IPV6 : Nat := 0x86DD

/-- ETHERTYPE_ARP from net/ethernet.h. -/
def ETHERTYPE_ARP : Nat := 0x0806

/-- ETHERTYPE_PPPOE, defined in decode.c as 0x8864 when absent. -/
def ETHERTYPE_PPPOE : Nat := 0x8864

/-- AF_INET on Linux. -/
def AF_INET : Nat := 2

/-- AF_INET6 on Linux. -/
def AF_INET6 : Nat := 10

/-- TCP FIN flag bit. -/
def TH_FIN : Nat := 0x01

/-- TCP SYN flag bit. -/
def TH_SYN : Nat := 0x02

/-- TCP RST flag bit. -/
def TH_RST : Nat := 0x04

/-- TCP PUSH flag bit. -/
def TH_PUSH : Nat := 0x08

/-- TCP ACK flag bit. -/
def TH_ACK : Nat := 0x10

/-- TCP URG flag bit. -/
def TH_URG : Nat := 0x20

/-- DLT_EN10MB from pcap. -/
def DLT_EN10MB : Int := 1

/-- DLT_LOOP from pcap. -/
def DLT_LOOP : Int := 108

/-- DLT_NULL from pcap. -/
def DLT_NULL : Int := 0

/-- DLT_PPP from pcap. -/
def DLT_PPP : Int := 9

/-- DLT_FDDI from pcap. -/
def DLT_FDDI : Int := 10

/-- DLT_PPP_ETHER from pcap. -/
def DLT_PPP_ETHER : Int := 51

/-- DLT_LINUX_SLL from pcap. -/
def DLT_LINUX_SLL : Int := 113

/-- DLT_RAW from pcap (Linux value). -/
def DLT_RAW : Int := 12

/-- Reading byte `i` of the captured buffer `pdata`; offsets beyond the list
read as 0 (bounds questions are handled separately by the read-offset
model below). -/
def byteAt (pdata : List Nat) (i : Nat) : Nat := pdata.getD i 0

/-- A 16-bit field read through ntohs on the struct overlay: big-endian pair
of bytes at offsets `i`, `i+1`. -/
def ntohs16 (pdata : List Nat) (i : Nat) : Nat :=
  256 * byteAt pdata i + byteAt pdata (i + 1)

/-- The 32-bit host-order read `*(const uint32_t *)pdata` in decode_loop, on
a little-endian (Linux) host. -/
def word32le (pdata : List Nat) (i : Nat) : Nat :=
  byteAt pdata i + 256 * byteAt pdata (i + 1) +
    65536 * byteAt pdata (i + 2) + 16777216 * byteAt pdata (i + 3)

/-- The `n` bytes of the buffer starting at offset `off` (memcpy of a header
field into the summary). -/
def bytesAt (pdata : List Nat) (off n : Nat) : List Nat :=
  (List.range n).map (fun i => byteAt pdata (off + i))

/-- Modelled from the spec: the explicit address-family discriminant of the
addr type (addr.h is not among the sources); zero-initialization leaves it
at the unset value. -/
inductive AddrFamily where
  | unset : AddrFamily
  | IPv4 : AddrFamily
  | IPv6 : AddrFamily
deriving DecidableEq, Repr

/-- Modelled from the spec: tagged union over 4-byte IPv4 / 16-byte IPv6
addresses.  `ip` is the 16 bytes of the union storage; an IPv4 store writes
the first 4 bytes and leaves the rest. -/
structure Addr where
  family : AddrFamily
  ip : List Nat
deriving DecidableEq, Repr

/-- Zero-initialized address: unset family, 16 zero union bytes. -/
def zeroAddr : Addr := ⟨AddrFamily.unset, List.replicate 16 0⟩

/-- Modelled from the spec: struct pktsummary of decode.h — timestamp,
6-byte MACs, declared length, protocol, tagged addresses, ports, TCP
flags. -/
structure Pktsummary where
  time : Nat
  src_mac : List Nat
  dst_mac : List Nat
  len : Nat
  proto : Nat
  src : Addr
  dst : Addr
  src_port : Nat
  dst_port : Nat
  tcp_flags : Nat
deriving DecidableEq, Repr

/-- The memset-to-zero initial summary. -/
def zeroSummary : Pktsummary :=
  { time := 0
    src_mac := List.replicate 6 0
    dst_mac := List.replicate 6 0
    len := 0
    proto := 0
    src := zeroAddr
    dst := zeroAddr
    src_port := 0
    dst_port := 0
    tcp_flags := 0 }

/-- One verbosef diagnostic event, one constructor per call site in
decode.c. -/
inductive Log where
  | etherTooShort (caplen : Nat) : Log
  | etherDiscardIPexpectingPppoe : Log
  | etherGotPppoe : Log
  | etherUnknownProto (t : Nat) : Log
  | loopTooShort (caplen : Nat) : Log
  | loopUnknownFamily (f : Nat) : Log
  | pppTooShort (caplen : Nat) : Log
  | nonIpPPP : Log
  | pppoeTooShort (len : Nat) : Log
  | pppoeBadCode (c : Nat) : Log
  | pppoeNonIp (a b : Nat) : Log
  | sllTooShort (caplen : Nat) : Log
  | sllUnknownProto (t : Nat) : Log
  | ipTooShort (len : Nat) : Log
  | ipBadVersion (v : Nat) : Log
  | ipv6TooShort (len : Nat) : Log
  | tcpTooShort (len : Nat) : Log
  | udpTooShort (len : Nat) : Log
  | ipUnknownProto (p : Nat) : Log
deriving DecidableEq, Repr

/-- Whether a diagnostic is one of the "packet too short" messages. -/
def Log.isTooShort : Log → Bool
  | .etherTooShort _ => true
  | .loopTooShort _ => true
  | .pppTooShort _ => true
  | .pppoeTooShort _ => true
  | .sllTooShort _ => true
  | .ipTooShort _ => true
  | .ipv6TooShort _ => true
  | .tcpTooShort _ => true
  | .udpTooShort _ => true
  | _ => false

/-- decode_ip_payload (decode.c lines 382-424): switch on sm->proto; TCP and
UDP check the remaining length, set the non-accounting sentinel on
violation, and otherwise extract ports (and, for TCP, the masked flag
byte); the listed opaque protocols are accepted silently; anything else is
logged. -/
def decode_ip_payload (pdata : List Nat) (len : Nat) (sm : Pktsummary) :
    Pktsummary × List Log :=
  if sm.proto = IPPROTO_TCP then
    if len < TCP_HDR_LEN then
      ({ sm with proto := IPPROTO_INVALID }, [Log.tcpTooShort len])
    else
      ({ sm with
          src_port := ntohs16 pdata 0
          dst_port := ntohs16 pdata 2
          tcp_flags := byteAt pdata 13 &&&
            (TH_FIN ||| TH_SYN ||| TH_RST ||| TH_PUSH ||| TH_ACK ||| TH_URG) },
        [])
  else if sm.proto = IPPROTO_UDP then
    if len < UDP_HDR_LEN then
      ({ sm with proto := IPPROTO_INVALID }, [Log.udpTooShort len])
    else
      ({ sm with src_port := ntohs16 pdata 0, dst_port := ntohs16 pdata 2 }, [])
  else if sm.proto = IPPROTO_ICMP ∨ sm.proto = IPPROTO_ICMPV6 ∨
      sm.proto = IPPROTO_AH ∨ sm.proto = IPPROTO_ESP ∨
      sm.proto = IPPROTO_OSPF then
    (sm, [])
  else
    (sm, [Log.ipUnknownProto sm.proto])

/-- The network-layer fills performed by decode_ipv6 (decode.c lines
370-377) before it delegates to decode_ip_payload: length is the
payload-length field plus the fixed header size, protocol is the
next-header byte, and both addresses are 16-byte copies tagged IPv6. -/
def decode_ipv6_fill (pdata : List Nat) (sm : Pktsummary) : Pktsummary :=
  { sm with
      len := ntohs16 pdata 4 + IPV6_HDR_LEN
      proto := byteAt pdata 6
      src := ⟨AddrFamily.IPv6, bytesAt pdata 8 16⟩
      dst := ⟨AddrFamily.IPv6, bytesAt pdata 24 16⟩ }

/-- decode_ipv6 (decode.c lines 360-380): length check, fills, then
delegates the bytes past the fixed header to decode_ip_payload. -/
def decode_ipv6 (pdata : List Nat) (len : Nat) (sm : Pktsummary) :
    Pktsummary × List Log :=
  if len < IPV6_HDR_LEN then (sm, [Log.ipv6TooShort len])
  else
    decode_ip_payload (pdata.drop IPV6_HDR_LEN) (len - IPV6_HDR_LEN)
      (decode_ipv6_fill pdata sm)

/-- decode_ip (decode.c lines 329-358): reads the version nibble of byte 0
(hdr->ip_v, the high nibble) and redirects version 6 to decode_ipv6 before
any length check; otherwise requires 20 bytes and version 4, fills length
(ntohs of the total-length field), protocol, and the verbatim 4-byte
addresses tagged IPv4 (a store through the union's v4 member), then
delegates to decode_ip_payload. -/
def decode_ip (pdata : List Nat) (len : Nat) (sm : Pktsummary) :
    Pktsummary × List Log :=
  if byteAt pdata 0 / 16 = 6 then decode_ipv6 pdata len sm
  else if len < IP_HDR_LEN then (sm, [Log.ipTooShort len])
  else if byteAt pdata 0 / 16 ≠ 4 then
    (sm, [Log.ipBadVersion (byteAt pdata 0 / 16)])
  else
    decode_ip_payload (pdata.drop IP_HDR_LEN) (len - IP_HDR_LEN)
      { sm with
          len := ntohs16 pdata 2
          proto := byteAt pdata 9
          src := ⟨AddrFamily.IPv4, bytesAt pdata 12 4 ++ sm.src.ip.drop 4⟩
          dst := ⟨AddrFamily.IPv4, bytesAt pdata 16 4 ++ sm.dst.ip.drop 4⟩ }

/-- Result of running one link-layer decoder on a frame: the final local
summary (the stack `sm`), the diagnostics emitted, the summaries submitted
to the accounting sink `acct_for` in order, and the number of times the
frame was dispatched to the IP demuxer `decode_ip`. -/
structure DecodeOut where
  sm : Pktsummary
  logs : List Log
  sink : List Pktsummary
  ipCalls : Nat
deriving DecidableEq, Repr

/-- decode_pppoe_real (decode.c lines 249-272): length check against the
PPPoE header length, code byte must be 0, LCP/LQR control traffic silently
discarded, PPP-protocol 0x0021 dispatched to the IP demuxer followed by
the accounting sink, anything else logged. -/
def decode_pppoe_real (pdata : List Nat) (len : Nat) (sm : Pktsummary) :
    DecodeOut :=
  if len < PPPOE_HDR_LEN then ⟨sm, [Log.pppoeTooShort len], [], 0⟩
  else if byteAt pdata 1 ≠ 0 then ⟨sm, [Log.pppoeBadCode (byteAt pdata 1)], [], 0⟩
  else if byteAt pdata 6 = 0xc0 ∧ byteAt pdata 7 = 0x21 then ⟨sm, [], [], 0⟩
  else if byteAt pdata 6 = 0xc0 ∧ byteAt pdata 7 = 0x25 then ⟨sm, [], [], 0⟩
  else if byteAt pdata 6 = 0x00 ∧ byteAt pdata 7 = 0x21 then
    let r := decode_ip (pdata.drop PPPOE_HDR_LEN) (len - PPPOE_HDR_LEN) sm
    ⟨r.1, r.2, [r.1], 1⟩
  else ⟨sm, [Log.pppoeNonIp (byteAt pdata 6) (byteAt pdata 7)], [], 0⟩

/-- decode_ether (decode.c lines 134-182): zeroed summary with the capture
timestamp, length check against ETHER_HDR_LEN, MAC copies (dest at offset
0, source at offset 6), then the ethertype switch: IP/IPv6 go to the IP
demuxer and the sink unless PPPoE mode is on; ARP is silently accepted;
PPPoE-session frames go to decode_pppoe_real only in PPPoE mode; anything
else is logged. -/
def decode_ether (wantPppoe : Bool) (caplen ts : Nat) (pdata : List Nat) :
    DecodeOut :=
  let sm0 : Pktsummary := { zeroSummary with time := ts }
  if caplen < ETHER_HDR_LEN then ⟨sm0, [Log.etherTooShort caplen], [], 0⟩
  else
    let sm1 : Pktsummary :=
      { sm0 with src_mac := bytesAt pdata 6 6, dst_mac := bytesAt pdata 0 6 }
    let t := ntohs16 pdata 12
    if t = ETHERTYPE_IP ∨ t = ETHERTYPE_IPV6 then
      if wantPppoe then ⟨sm1, [Log.etherDiscardIPexpectingPppoe], [], 0⟩
      else
        let r := decode_ip (pdata.drop ETHER_HDR_LEN) (caplen - ETHER_HDR_LEN) sm1
        ⟨r.1, r.2, [r.1], 1⟩
    else if t = ETHERTYPE_ARP then ⟨sm1, [], [], 0⟩
    else if t = ETHERTYPE_PPPOE then
      if wantPppoe then
        decode_pppoe_real (pdata.drop ETHER_HDR_LEN) (caplen - ETHER_HDR_LEN) sm1
      else ⟨sm1, [Log.etherGotPppoe], [], 0⟩
    else ⟨sm1, [Log.etherUnknownProto t], [], 0⟩

/-- decode_loop (decode.c lines 184-215): length check against
NULL_HDR_LEN, host-order 32-bit family word at offset 0; AF_INET and
AF_INET6 both strip the header, run the IP demuxer, set the timestamp and
invoke the sink; anything else is logged. -/
def decode_loop (caplen ts : Nat) (pdata : List Nat) : DecodeOut :=
  let sm0 := zeroSummary
  if caplen < NULL_HDR_LEN then ⟨sm0, [Log.loopTooShort caplen], [], 0⟩
  else
    let family := word32le pdata 0
    if family = AF_INET then
      let r := decode_ip (pdata.drop NULL_HDR_LEN) (caplen - NULL_HDR_LEN) sm0
      ⟨{ r.1 with time := ts }, r.2, [{ r.1 with time := ts }], 1⟩
    else if family = AF_INET6 then
      let r := decode_ip (pdata.drop NULL_HDR_LEN) (caplen - NULL_HDR_LEN) sm0
      ⟨{ r.1 with time := ts }, r.2, [{ r.1 with time := ts }], 1⟩
    else ⟨sm0, [Log.loopUnknownFamily family], [], 0⟩

/-- decode_ppp (decode.c lines 217-236): the length check is against
PPPOE_HDR_LEN (8), not PPP_HDR_LEN (4); protocol id 0x0021 at bytes 2-3
strips PPP_HDR_LEN, runs the IP demuxer, sets the timestamp and invokes
the sink; anything else logs the non-IP diagnostic. -/
def decode_ppp (caplen ts : Nat) (pdata : List Nat) : DecodeOut :=
  let sm0 := zeroSummary
  if caplen < PPPOE_HDR_LEN then ⟨sm0, [Log.pppTooShort caplen], [], 0⟩
  else if byteAt pdata 2 = 0x00 ∧ byteAt pdata 3 = 0x21 then
    let r := decode_ip (pdata.drop PPP_HDR_LEN) (caplen - PPP_HDR_LEN) sm0
    ⟨{ r.1 with time := ts }, r.2, [{ r.1 with time := ts }], 1⟩
  else ⟨sm0, [Log.nonIpPPP], [], 0⟩

/-- decode_pppoe (decode.c lines 238-247): zeroed summary with the capture
timestamp, then decode_pppoe_real on the whole frame. -/
def decode_pppoe (caplen ts : Nat) (pdata : List Nat) : DecodeOut :=
  decode_pppoe_real pdata caplen { zeroSummary with time := ts }

/-- decode_linux_sll (decode.c lines 275-311): length check against
SLL_HDR_LEN, ethertype at offset 14; IP/IPv6 strip the header, run the IP
demuxer, set the timestamp and invoke the sink; ARP is silently accepted;
anything else is logged.  No link address is copied into the summary. -/
def decode_linux_sll (caplen ts : Nat) (pdata : List Nat) : DecodeOut :=
  let sm0 := zeroSummary
  if caplen < SLL_HDR_LEN then ⟨sm0, [Log.sllTooShort caplen], [], 0⟩
  else
    let t := ntohs16 pdata 14
    if t = ETHERTYPE_IP ∨ t = ETHERTYPE_IPV6 then
      let r := decode_ip (pdata.drop SLL_HDR_LEN) (caplen - SLL_HDR_LEN) sm0
      ⟨{ r.1 with time := ts }, r.2, [{ r.1 with time := ts }], 1⟩
    else if t = ETHERTYPE_ARP then ⟨sm0, [], [], 0⟩
    else ⟨sm0, [Log.sllUnknownProto t], [], 0⟩

/-- decode_raw (decode.c lines 313-324): no length check at all — the whole
captured buffer goes straight to the IP demuxer, then the timestamp is set
and the sink invoked. -/
def decode_raw (caplen ts : Nat) (pdata : List Nat) : DecodeOut :=
  let sm0 := zeroSummary
  let r := decode_ip pdata caplen sm0
  ⟨{ r.1 with time := ts }, r.2, [{ r.1 with time := ts }], 1⟩

/-- The decoder handlers that appear in the linkhdrs table (the FDDI entry
has none). -/
inductive Handler where
  | ether : Handler
  | loop : Handler
  | ppp : Handler
  | pppoe : Handler
  | linux_sll : Handler
  | raw : Handler
deriving DecidableEq, Repr

/-- Run the given handler on a frame.  `wantPppoe` is the global
opt_want_pppoe flag (only decode_ether consults it). -/
def runDecoder (h : Handler) (wantPppoe : Bool) (caplen ts : Nat)
    (pdata : List Nat) : DecodeOut :=
  match h with
  | .ether => decode_ether wantPppoe caplen ts pdata
  | .loop => decode_loop caplen ts pdata
  | .ppp => decode_ppp caplen ts pdata
  | .pppoe => decode_pppoe caplen ts pdata
  | .linux_sll => decode_linux_sll caplen ts pdata
  | .raw => decode_raw caplen ts pdata

/-- One entry of the link-type registry: struct linkhdr of decode.h,
modelled from the spec for the type shape (the decoder pointer may be
NULL, hence Option). -/
structure Linkhdr where
  linktype : Int
  hdrlen : Nat
  handler : Option Handler
deriving DecidableEq, Repr

/-- The static linkhdrs table (decode.c lines 89-105), in the non-NetBSD,
DLT_LINUX_SLL-defined configuration, with its -1 sentinel entry. -/
def linkhdrs : List Linkhdr :=
  [ ⟨DLT_EN10MB, ETHER_HDR_LEN, some Handler.ether⟩,
    ⟨DLT_LOOP, NULL_HDR_LEN, some Handler.loop⟩,
    ⟨DLT_NULL, NULL_HDR_LEN, some Handler.loop⟩,
    ⟨DLT_PPP, PPP_HDR_LEN, some Handler.ppp⟩,
    ⟨DLT_FDDI, FDDI_HDR_LEN, none⟩,
    ⟨DLT_PPP_ETHER, PPPOE_HDR_LEN, some Handler.pppoe⟩,
    ⟨DLT_LINUX_SLL, SLL_HDR_LEN, some Handler.linux_sll⟩,
    ⟨DLT_RAW, RAW_HDR_LEN, some Handler.raw⟩,
    ⟨-1, 0, none⟩ ]

/-- The linear scan of getlinkhdr: stop at the -1 sentinel, return the
first matching entry. -/
def getlinkhdrAux : List Linkhdr → Int → Option Linkhdr
  | [], _ => none
  | e :: rest, lt =>
    if e.linktype = -1 then none
    else if e.linktype = lt then some e
    else getlinkhdrAux rest lt

/-- getlinkhdr (decode.c lines 111-120). -/
def getlinkhdr (lt : Int) : Option Linkhdr := getlinkhdrAux linkhdrs lt

/-- getsnaplen (decode.c lines 127-131). -/
def getsnaplen (lh : Linkhdr) : Nat :=
  lh.hdrlen + IPV6_HDR_LEN + Nat.max TCP_HDR_LEN UDP_HDR_LEN

/-- Byte offsets (relative to its own buffer) dereferenced by
decode_ip_payload: the TCP branch reads ports and the flag byte only after
its length check; likewise UDP; the other branches read nothing. -/
def payloadReads (proto len : Nat) : List Nat :=
  if proto = IPPROTO_TCP then
    if len < TCP_HDR_LEN then [] else [0, 1, 2, 3, 13]
  else if proto = IPPROTO_UDP then
    if len < UDP_HDR_LEN then [] else [0, 1, 2, 3]
  else []

/-- Byte offsets dereferenced by decode_ipv6 (not counting the version
nibble, which its caller decode_ip reads): nothing when the length check
fails, otherwise the payload-length, next-header and address fields plus
decode_ip_payload's reads shifted past the header. -/
def ipv6Reads (pdata : List Nat) (len : Nat) : List Nat :=
  if len < IPV6_HDR_LEN then []
  else
    [4, 5, 6] ++ (List.range 16).map (fun i => 8 + i) ++
      (List.range 16).map (fun i => 24 + i) ++
      (payloadReads (byteAt pdata 6) (len - IPV6_HDR_LEN)).map
        (fun i => IPV6_HDR_LEN + i)

/-- Byte offsets dereferenced by decode_ip, callees included: byte 0
(hdr->ip_v) is read before any length check; the IPv4 fields are read only
after the length and version checks, with decode_ip_payload's reads
shifted past the header. -/
def ipReads (pdata : List Nat) (len : Nat) : List Nat :=
  0 ::
    (if byteAt pdata 0 / 16 = 6 then ipv6Reads pdata len
     else if len < IP_HDR_LEN then []
     else if byteAt pdata 0 / 16 ≠ 4 then []
     else
       [2, 3, 9] ++ (List.range 8).map (fun i => 12 + i) ++
         (payloadReads (byteAt pdata 9) (len - IP_HDR_LEN)).map
           (fun i => IP_HDR_LEN + i))

/-- Byte offsets dereferenced under decode_raw: the captured length is
passed through to decode_ip with no minimum check. -/
def rawReads (pdata : List Nat) (caplen : Nat) : List Nat :=
  ipReads pdata caplen

/-! Helper lemmas. -/

/-- Reading a byte of a dropped buffer is reading the shifted offset of the
original buffer. -/
theorem byteAt_drop (l : List Nat) (n i : Nat) :
    byteAt (l.drop n) i = byteAt l (n + i) := by
  simp [byteAt, List.getD_eq_getElem?_getD, List.getElem?_drop]

/-- ntohs of a dropped buffer is ntohs at the shifted offset. -/
theorem ntohs16_drop (l : List Nat) (n i : Nat) :
    ntohs16 (l.drop n) i = ntohs16 l (n + i) := by
  simp [ntohs16, byteAt_drop, Nat.add_assoc]

/-- bytesAt of a dropped buffer is bytesAt at the shifted offset. -/
theorem bytesAt_drop (l : List Nat) (n off k : Nat) :
    bytesAt (l.drop n) off k = bytesAt l (n + off) k := by
  simp [bytesAt, byteAt_drop, Nat.add_assoc]

/-- decode_ip_payload only writes the protocol, port and flag fields:
timestamp, MACs, length and both addresses pass through untouched. -/
theorem decode_ip_payload_preserves (p : List Nat) (l : Nat) (s : Pktsummary) :
    (decode_ip_payload p l s).1.time = s.time ∧
    (decode_ip_payload p l s).1.src_mac = s.src_mac ∧
    (decode_ip_payload p l s).1.dst_mac = s.dst_mac ∧
    (decode_ip_payload p l s).1.len = s.len ∧
    (decode_ip_payload p l s).1.src = s.src ∧
    (decode_ip_payload p l s).1.dst = s.dst := by
  unfold decode_ip_payload
  split
  · split <;> simp
  · split
    · split <;> simp
    · split <;> simp

/-- The IP demuxer never writes the timestamp or MAC fields. -/
theorem decode_ip_preserves (p : List Nat) (l : Nat) (s : Pktsummary) :
    (decode_ip p l s).1.time = s.time ∧
    (decode_ip p l s).1.src_mac = s.src_mac ∧
    (decode_ip p l s).1.dst_mac = s.dst_mac := by
  unfold decode_ip decode_ipv6 decode_ipv6_fill
  split
  · split
    · simp
    · refine ⟨?_, ?_, ?_⟩ <;>
        simp [(decode_ip_payload_preserves _ _ _).1,
          (decode_ip_payload_preserves _ _ _).2.1,
          (decode_ip_payload_preserves _ _ _).2.2.1]
  · split
    · simp
    · split
      · simp
      · refine ⟨?_, ?_, ?_⟩ <;>
          simp [(decode_ip_payload_preserves _ _ _).1,
            (decode_ip_payload_preserves _ _ _).2.1,
            (decode_ip_payload_preserves _ _ _).2.2.1]

/-- decode_pppoe_real submits to the sink exactly once per IP dispatch, at
most once, and only ever submits its final summary; it never writes the
timestamp or MAC fields. -/
theorem decode_pppoe_real_shape (p : List Nat) (l : Nat) (s : Pktsummary) :
    (decode_pppoe_real p l s).sink.length = (decode_pppoe_real p l s).ipCalls ∧
    (decode_pppoe_real p l s).ipCalls ≤ 1 ∧
    ((decode_pppoe_real p l s).sink = [] ∨
      (decode_pppoe_real p l s).sink = [(decode_pppoe_real p l s).sm]) ∧
    (decode_pppoe_real p l s).sm.time = s.time ∧
    (decode_pppoe_real p l s).sm.src_mac = s.src_mac ∧
    (decode_pppoe_real p l s).sm.dst_mac = s.dst_mac := by
  unfold decode_pppoe_real
  split
  · simp
  · split
    · simp
    · split
      · simp
      · split
        · simp
        · split
          · refine ⟨by simp, by simp, by simp, ?_, ?_, ?_⟩ <;>
              simp [(decode_ip_preserves _ _ _).1,
                (decode_ip_preserves _ _ _).2.1,
                (decode_ip_preserves _ _ _).2.2]
          · simp

/-- Every read offset of decode_ip_payload lies below its length argument
(the reads happen only after the TCP/UDP length checks). -/
theorem payloadReads_lt (proto l : Nat) : ∀ i ∈ payloadReads proto l, i < l := by
  intro i hi
  unfold payloadReads at hi
  by_cases h1 : proto = IPPROTO_TCP
  · rw [if_pos h1] at hi
    by_cases h2 : l < TCP_HDR_LEN
    · rw [if_pos h2] at hi
      simp at hi
    · rw [if_neg h2] at hi
      simp only [TCP_HDR_LEN, Nat.not_lt] at h2
      simp only [List.mem_cons, List.not_mem_nil, or_false] at hi
      omega
  · rw [if_neg h1] at hi
    by_cases h3 : proto = IPPROTO_UDP
    · rw [if_pos h3] at hi
      by_cases h2 : l < UDP_HDR_LEN
      · rw [if_pos h2] at hi
        simp at hi
      · rw [if_neg h2] at hi
        simp only [UDP_HDR_LEN, Nat.not_lt] at h2
        simp only [List.mem_cons, List.not_mem_nil, or_false] at hi
        omega
    · rw [if_neg h3] at hi
      simp at hi

/-- Every read offset of decode_ipv6 lies below its length argument. -/
theorem ipv6Reads_lt (pdata : List Nat) (len : Nat) :
    ∀ i ∈ ipv6Reads pdata len, i < len := by
  intro i hi
  unfold ipv6Reads at hi
  by_cases h : len < IPV6_HDR_LEN
  · simp [h] at hi
  · simp only [if_neg h, List.mem_append, List.mem_cons, List.not_mem_nil,
      or_false, List.mem_map, List.mem_range] at hi
    simp only [IPV6_HDR_LEN, Nat.not_lt] at h
    rcases hi with ((h456 | ⟨j, hj, hij⟩) | ⟨j, hj, hij⟩) | ⟨j, hj, hij⟩
    · omega
    · omega
    · omega
    · have := payloadReads_lt (byteAt pdata 6) (len - IPV6_HDR_LEN) j hj
      simp only [IPV6_HDR_LEN] at this hij
      omega

/-- decode_ip reads byte 0 (the version nibble) on every input, before any
length check. -/
theorem ipReads_zero_mem (pdata : List Nat) (len : Nat) :
    0 ∈ ipReads pdata len := by
  unfold ipReads
  exact List.mem_cons_self _ _

/-- Given at least one byte, every read offset of decode_ip (callees
included) lies below the length argument. -/
theorem ipReads_bounded (pdata : List Nat) (len : Nat) (hlen : 1 ≤ len) :
    ∀ i ∈ ipReads pdata len, i < len := by
  intro i hi
  unfold ipReads at hi
  rcases List.mem_cons.mp hi with rfl | hi
  · omega
  · by_cases h6 : byteAt pdata 0 / 16 = 6
    · simp only [if_pos h6] at hi
      exact ipv6Reads_lt pdata len i hi
    · simp only [if_neg h6] at hi
      by_cases hsh : len < IP_HDR_LEN
      · simp [hsh] at hi
      · simp only [if_neg hsh] at hi
        by_cases h4 : byteAt pdata 0 / 16 ≠ 4
        · simp [h4] at hi
        · simp only [if_neg h4, List.mem_append, List.mem_cons,
            List.not_mem_nil, or_false, List.mem_map, List.mem_range] at hi
          simp only [IP_HDR_LEN, Nat.not_lt] at hsh
          rcases hi with (h239 | ⟨j, hj, hij⟩) | ⟨j, hj, hij⟩
          · omega
          · omega
          · have := payloadReads_lt (byteAt pdata 9) (len - IP_HDR_LEN) j hj
            simp only [IP_HDR_LEN] at this hij
            omega

/-- Claim C2: for every non-sentinel entry of the link-header registry
(equivalently, every descriptor returned by getlinkhdr), getsnaplen is the
entry's header length plus the 40-byte IPv6 header plus max(20, 8), i.e.
header length + 60. -/
theorem claim_C2 :
    (∀ e ∈ linkhdrs, e.linktype ≠ -1 →
      getsnaplen e = e.hdrlen + 40 + Nat.max 20 8 ∧
        getsnaplen e = e.hdrlen + 60) ∧
    (∀ (lt : Int) (e : Linkhdr), getlinkhdr lt = some e →
      getsnaplen e = e.hdrlen + 40 + Nat.max 20 8 ∧
        getsnaplen e = e.hdrlen + 60) := by
  constructor
  · intro e _ _
    constructor <;>
      simp [getsnaplen, IPV6_HDR_LEN, TCP_HDR_LEN, UDP_HDR_LEN, Nat.add_assoc]
  · intro lt e _
    constructor <;>
      simp [getsnaplen, IPV6_HDR_LEN, TCP_HDR_LEN, UDP_HDR_LEN, Nat.add_assoc]

/-- Witness for C2: the Ethernet entry, looked up through getlinkhdr, has
minimum capture length 14 + 60 = 74. -/
theorem claim_C2_witness :
    getsnaplen ⟨DLT_EN10MB, ETHER_HDR_LEN, some Handler.ether⟩ =
      (⟨DLT_EN10MB, ETHER_HDR_LEN, some Handler.ether⟩ : Linkhdr).hdrlen + 60 :=
  (claim_C2.2 DLT_EN10MB ⟨DLT_EN10MB, ETHER_HDR_LEN, some Handler.ether⟩
    (by decide)).2

/-- Claim C9: decode_ip reads the version nibble at offset 0 on every
input before any length check; with at least one byte every read stays in
bounds, and with length 0 (which decode_raw passes through unchecked) the
offset-0 read falls outside the buffer. -/
theorem claim_C9 :
    (∀ (pdata : List Nat) (len : Nat), 0 ∈ ipReads pdata len) ∧
    (∀ (pdata : List Nat) (len : Nat), 1 ≤ len →
      ∀ i ∈ ipReads pdata len, i < len) ∧
    (∀ (pdata : List Nat) (caplen : Nat),
      rawReads pdata caplen = ipReads pdata caplen) ∧
    (∀ pdata : List Nat, ∃ i ∈ rawReads pdata 0, ¬ i < 0) := by
  refine ⟨ipReads_zero_mem, ipReads_bounded, fun _ _ => rfl, fun pdata => ?_⟩
  exact ⟨0, ipReads_zero_mem pdata 0, by omega⟩

/-- Witness for C9: on the one-byte buffer holding 0x45 with length 1, the
offset-0 read is performed and is in bounds. -/
theorem claim_C9_witness : 0 ∈ ipReads [69] 1 ∧ (0 : Nat) < 1 :=
  ⟨claim_C9.1 [69] 1,
    claim_C9.2.1 [69] 1 (by decide) 0 (claim_C9.1 [69] 1)⟩

/-- Claim C10: getlinkhdr succeeds for the FDDI link type but the returned
descriptor has no handler, while every other non-sentinel registry entry
does have one. -/
theorem claim_C10 :
    getlinkhdr DLT_FDDI = some ⟨DLT_FDDI, FDDI_HDR_LEN, none⟩ ∧
    (∀ e ∈ linkhdrs, e.linktype ≠ -1 → e.linktype ≠ DLT_FDDI →
      e.handler.isSome = true) := by
  constructor
  · decide
  · decide

/-- Witness for C10: the Ethernet registry entry has a handler. -/
theorem claim_C10_witness :
    (⟨DLT_EN10MB, ETHER_HDR_LEN, some Handler.ether⟩ : Linkhdr).handler.isSome
      = true :=
  claim_C10.2 ⟨DLT_EN10MB, ETHER_HDR_LEN, some Handler.ether⟩
    (by decide) (by decide) (by decide)

/-- Claim C3: any buffer whose first byte's version nibble is 6 is
processed by decode_ip as IPv6 regardless of caller; with at least 40
bytes, the network layer hands the transport demuxer a summary holding the
16-byte addresses tagged IPv6, the protocol from the next-header byte, and
length equal to the payload-length field plus 40 — and the addresses,
families and length still stand in the final summary. -/
theorem claim_C3 (pdata : List Nat) (len : Nat) (sm : Pktsummary)
    (hv : byteAt pdata 0 / 16 = 6) (hlen : IPV6_HDR_LEN ≤ len) :
    decode_ip pdata len sm =
      decode_ip_payload (pdata.drop IPV6_HDR_LEN) (len - IPV6_HDR_LEN)
        (decode_ipv6_fill pdata sm) ∧
    (decode_ipv6_fill pdata sm).src = ⟨AddrFamily.IPv6, bytesAt pdata 8 16⟩ ∧
    (decode_ipv6_fill pdata sm).dst = ⟨AddrFamily.IPv6, bytesAt pdata 24 16⟩ ∧
    (decode_ipv6_fill pdata sm).proto = byteAt pdata 6 ∧
    (decode_ipv6_fill pdata sm).len = ntohs16 pdata 4 + IPV6_HDR_LEN ∧
    (decode_ip pdata len sm).1.src = ⟨AddrFamily.IPv6, bytesAt pdata 8 16⟩ ∧
    (decode_ip pdata len sm).1.dst = ⟨AddrFamily.IPv6, bytesAt pdata 24 16⟩ ∧
    (decode_ip pdata len sm).1.len = ntohs16 pdata 4 + IPV6_HDR_LEN := by
  have heq : decode_ip pdata len sm =
      decode_ip_payload (pdata.drop IPV6_HDR_LEN) (len - IPV6_HDR_LEN)
        (decode_ipv6_fill pdata sm) := by
    unfold decode_ip decode_ipv6
    rw [if_pos hv, if_neg (Nat.not_lt.mpr hlen)]
  refine ⟨heq, rfl, rfl, rfl, rfl, ?_, ?_, ?_⟩ <;> rw [heq]
  · rw [(decode_ip_payload_preserves _ _ _).2.2.2.2.1]
    rfl
  · rw [(decode_ip_payload_preserves _ _ _).2.2.2.2.2]
    rfl
  · rw [(decode_ip_payload_preserves _ _ _).2.2.2.1]
    rfl

/-- Witness for C3: a buffer whose first byte is 0x60, with length 40. -/
theorem claim_C3_witness :
    (decode_ip [96] 40 zeroSummary).1.len = ntohs16 [96] 4 + IPV6_HDR_LEN :=
  (claim_C3 [96] 40 zeroSummary (by decide) (by decide)).2.2.2.2.2.2.2

/-- Claim C4: a TCP packet whose payload past the IPv4 header is shorter
than 20 bytes makes the transport demuxer set the non-accounting sentinel
and return; the network-layer fields (addresses, length) stay exactly as
parsed and the port and flag fields keep their prior (zero) values. -/
theorem claim_C4 (pdata : List Nat) (len : Nat) (sm : Pktsummary)
    (hv : byteAt pdata 0 / 16 = 4) (hlen : IP_HDR_LEN ≤ len)
    (hp : byteAt pdata 9 = IPPROTO_TCP)
    (hshort : len - IP_HDR_LEN < TCP_HDR_LEN) :
    (∀ (q : List Nat) (l : Nat) (s : Pktsummary),
      s.proto = IPPROTO_TCP → l < TCP_HDR_LEN →
        decode_ip_payload q l s =
          ({ s with proto := IPPROTO_INVALID }, [Log.tcpTooShort l])) ∧
    decode_ip pdata len sm =
      ({ sm with
          len := ntohs16 pdata 2
          proto := IPPROTO_INVALID
          src := ⟨AddrFamily.IPv4, bytesAt pdata 12 4 ++ sm.src.ip.drop 4⟩
          dst := ⟨AddrFamily.IPv4, bytesAt pdata 16 4 ++ sm.dst.ip.drop 4⟩ },
        [Log.tcpTooShort (len - IP_HDR_LEN)]) := by
  have hpay : ∀ (q : List Nat) (l : Nat) (s : Pktsummary),
      s.proto = IPPROTO_TCP → l < TCP_HDR_LEN →
      decode_ip_payload q l s =
        ({ s with proto := IPPROTO_INVALID }, [Log.tcpTooShort l]) := by
    intro q l s hs hl
    unfold decode_ip_payload
    rw [if_pos hs, if_pos hl]
  refine ⟨hpay, ?_⟩
  unfold decode_ip
  rw [if_neg (by rw [hv]; omega), if_neg (Nat.not_lt.mpr hlen),
    if_neg (by rw [hv]; simp)]
  exact hpay _ _ _ hp hshort

/-- Witness for C4: a 20-byte IPv4/TCP header with nothing after it. -/
theorem claim_C4_witness :
    (decode_ip [69, 0, 0, 0, 0, 0, 0, 0, 0, 6] 20 zeroSummary).1.proto =
      IPPROTO_INVALID := by
  rw [(claim_C4 [69, 0, 0, 0, 0, 0, 0, 0, 0, 6] 20 zeroSummary
    (by decide) (by decide) (by decide) (by decide)).2]

/-- Claim C6: for every link decoder, the accounting sink is invoked
exactly as many times as the frame is dispatched to the IP demuxer, never
more than once, and always on the frame's final summary. -/
theorem claim_C6 :
    ∀ (h : Handler) (wantPppoe : Bool) (caplen ts : Nat) (pdata : List Nat),
    ((runDecoder h wantPppoe caplen ts pdata).sink.length =
      (runDecoder h wantPppoe caplen ts pdata).ipCalls) ∧
    (runDecoder h wantPppoe caplen ts pdata).ipCalls ≤ 1 ∧
    ((runDecoder h wantPppoe caplen ts pdata).sink = [] ∨
      (runDecoder h wantPppoe caplen ts pdata).sink =
        [(runDecoder h wantPppoe caplen ts pdata).sm]) := by
  intro h wantPppoe caplen ts pdata
  cases h <;> simp only [runDecoder]
  case ether =>
    simp only [decode_ether]
    split
    · simp
    · split
      · split
        · simp
        · simp
      · split
        · simp
        · split
          · split
            · exact ⟨(decode_pppoe_real_shape _ _ _).1,
                (decode_pppoe_real_shape _ _ _).2.1,
                (decode_pppoe_real_shape _ _ _).2.2.1⟩
            · simp
          · simp
  case loop =>
    simp only [decode_loop]
    split
    · simp
    · split
      · simp
      · split
        · simp
        · simp
  case ppp =>
    simp only [decode_ppp]
    split
    · simp
    · split
      · simp
      · simp
  case pppoe =>
    exact ⟨(decode_pppoe_real_shape _ _ _).1,
      (decode_pppoe_real_shape _ _ _).2.1,
      (decode_pppoe_real_shape _ _ _).2.2.1⟩
  case linux_sll =>
    simp only [decode_linux_sll]
    split
    · simp
    · split
      · simp
      · split
        · simp
        · simp
  case raw =>
    simp [decode_raw]

/-- Claim C1: for every registry entry that has a decoder, a frame shorter
than the registered header length produces no sink invocation, a "packet
too short" diagnostic, and a summary in which every field except the
timestamp still has its zero-initialized value. -/
theorem claim_C1 :
    ∀ e ∈ linkhdrs, ∀ h : Handler, e.handler = some h →
    ∀ (wantPppoe : Bool) (caplen ts : Nat) (pdata : List Nat),
    caplen < e.hdrlen →
    (runDecoder h wantPppoe caplen ts pdata).sink = [] ∧
    (∃ l ∈ (runDecoder h wantPppoe caplen ts pdata).logs,
      l.isTooShort = true) ∧
    { (runDecoder h wantPppoe caplen ts pdata).sm with time := 0 } =
      zeroSummary := by
  intro e he h hh wantPppoe caplen ts pdata hlt
  simp only [linkhdrs, List.mem_cons, List.not_mem_nil, or_false] at he
  rcases he with rfl | rfl | rfl | rfl | rfl | rfl | rfl | rfl | rfl
  · -- Ethernet
    simp only [Option.some.injEq] at hh
    subst hh
    simp only at hlt
    simp only [runDecoder, decode_ether]
    rw [if_pos hlt]
    exact ⟨rfl, ⟨Log.etherTooShort caplen, by simp, rfl⟩, rfl⟩
  · -- DLT_LOOP
    simp only [Option.some.injEq] at hh
    subst hh
    simp only at hlt
    simp only [runDecoder, decode_loop]
    rw [if_pos hlt]
    exact ⟨rfl, ⟨Log.loopTooShort caplen, by simp, rfl⟩, rfl⟩
  · -- DLT_NULL
    simp only [Option.some.injEq] at hh
    subst hh
    simp only at hlt
    simp only [runDecoder, decode_loop]
    rw [if_pos hlt]
    exact ⟨rfl, ⟨Log.loopTooShort caplen, by simp, rfl⟩, rfl⟩
  · -- PPP: the registered header length is 4 but decode_ppp checks 8
    simp only [Option.some.injEq] at hh
    subst hh
    simp only [PPP_HDR_LEN] at hlt
    simp only [runDecoder, decode_ppp]
    rw [if_pos (show caplen < PPPOE_HDR_LEN by
      simp only [PPPOE_HDR_LEN]; omega)]
    exact ⟨rfl, ⟨Log.pppTooShort caplen, by simp, rfl⟩, rfl⟩
  · -- FDDI has no handler
    simp at hh
  · -- PPPoE
    simp only [Option.some.injEq] at hh
    subst hh
    simp only at hlt
    simp only [runDecoder, decode_pppoe, decode_pppoe_real]
    rw [if_pos hlt]
    exact ⟨rfl, ⟨Log.pppoeTooShort caplen, by simp, rfl⟩, rfl⟩
  · -- Linux cooked capture
    simp only [Option.some.injEq] at hh
    subst hh
    simp only at hlt
    simp only [runDecoder, decode_linux_sll]
    rw [if_pos hlt]
    exact ⟨rfl, ⟨Log.sllTooShort caplen, by simp, rfl⟩, rfl⟩
  · -- Raw: header length 0, nothing is shorter
    simp only [RAW_HDR_LEN] at hlt
    omega
  · -- sentinel has no handler
    simp at hh

/-- Witness for C1: a 3-byte frame on the Ethernet link type. -/
theorem claim_C1_witness :
    (runDecoder Handler.ether false 3 7 [1, 2, 3]).sink = [] ∧
    (∃ l ∈ (runDecoder Handler.ether false 3 7 [1, 2, 3]).logs,
      l.isTooShort = true) ∧
    { (runDecoder Handler.ether false 3 7 [1, 2, 3]).sm with time := 0 } =
      zeroSummary :=
  claim_C1 ⟨DLT_EN10MB, ETHER_HDR_LEN, some Handler.ether⟩ (by decide)
    Handler.ether rfl false 3 7 [1, 2, 3] (by decide)

/-- Counterexample to claim C7 as stated: the 4-byte PPP frame ff 03 00 21
has captured length equal to the PPP header length and carries the IP
protocol id at offsets 2-3, yet decode_ppp dispatches nothing and invokes
no sink — it logs "packet too short" because its length check uses the
PPPoE header length (8), not the PPP header length (4). -/
theorem claim_C7_cex :
    PPP_HDR_LEN ≤ 4 ∧
    byteAt [255, 3, 0, 33] 2 = 0x00 ∧ byteAt [255, 3, 0, 33] 3 = 0x21 ∧
    (decode_ppp 4 0 [255, 3, 0, 33]).ipCalls = 0 ∧
    (decode_ppp 4 0 [255, 3, 0, 33]).sink = [] ∧
    (decode_ppp 4 0 [255, 3, 0, 33]).logs = [Log.pppTooShort 4] := by
  decide

/-- Claim C7 amended: for every PPP frame of captured length at least the
PPPoE header length (8 bytes — the length decode_ppp actually checks), the
decoder dispatches to the IP demuxer and invokes the sink exactly when
bytes 2-3 are 0x00 0x21, and otherwise logs the non-IP diagnostic and
discards the frame. -/
theorem claim_C7_amended :
    ∀ (caplen ts : Nat) (pdata : List Nat), PPPOE_HDR_LEN ≤ caplen →
    (((decode_ppp caplen ts pdata).ipCalls = 1 ∧
      (decode_ppp caplen ts pdata).sink.length = 1) ↔
      (byteAt pdata 2 = 0x00 ∧ byteAt pdata 3 = 0x21)) ∧
    (¬(byteAt pdata 2 = 0x00 ∧ byteAt pdata 3 = 0x21) →
      (decode_ppp caplen ts pdata).sink = [] ∧
      (decode_ppp caplen ts pdata).logs = [Log.nonIpPPP]) := by
  intro caplen ts pdata hc
  simp only [decode_ppp]
  rw [if_neg (Nat.not_lt.mpr hc)]
  by_cases h : byteAt pdata 2 = 0x00 ∧ byteAt pdata 3 = 0x21
  · rw [if_pos h]
    exact ⟨iff_of_true (by simp) h, fun hn => absurd h hn⟩
  · rw [if_neg h]
    exact ⟨iff_of_false (by simp) h, fun _ => ⟨rfl, rfl⟩⟩

/-- Witness for the amended C7: an 8-byte IP-over-PPP frame is dispatched
and submitted once. -/
theorem claim_C7_witness :
    (decode_ppp 8 0 [255, 3, 0, 33]).ipCalls = 1 ∧
    (decode_ppp 8 0 [255, 3, 0, 33]).sink.length = 1 :=
  ((claim_C7_amended 8 0 [255, 3, 0, 33] (by decide)).1).mpr (by decide)

/-- Counterexample to claim C8 as stated: a full Linux-cooked frame with a
nonzero link-layer address that is dispatched to the sink still carries
all-zero MAC fields in its summary — decode_linux_sll never copies the
address field. -/
theorem claim_C8_cex :
    byteAt [0, 0, 0, 1, 0, 6, 17, 34, 51, 68, 85, 102, 0, 0, 8, 0] 6 ≠ 0 ∧
    (decode_linux_sll 16 0
      [0, 0, 0, 1, 0, 6, 17, 34, 51, 68, 85, 102, 0, 0, 8, 0]).sm.src_mac =
      List.replicate 6 0 ∧
    (decode_linux_sll 16 0
      [0, 0, 0, 1, 0, 6, 17, 34, 51, 68, 85, 102, 0, 0, 8, 0]).sm.dst_mac =
      List.replicate 6 0 ∧
    (decode_linux_sll 16 0
      [0, 0, 0, 1, 0, 6, 17, 34, 51, 68, 85, 102, 0, 0, 8, 0]).sm.src_mac ≠
      bytesAt [0, 0, 0, 1, 0, 6, 17, 34, 51, 68, 85, 102, 0, 0, 8, 0] 6 6 ∧
    (decode_linux_sll 16 0
      [0, 0, 0, 1, 0, 6, 17, 34, 51, 68, 85, 102, 0, 0, 8, 0]).sink =
      [(decode_linux_sll 16 0
        [0, 0, 0, 1, 0, 6, 17, 34, 51, 68, 85, 102, 0, 0, 8, 0]).sm] := by
  decide

/-- Claim C8 amended: the MAC fields are filled from the frame's link
addressing only by the Ethernet decoder; every other link decoder
(including Linux-cooked capture) leaves them zero. -/
theorem claim_C8_amended :
    (∀ (wantPppoe : Bool) (caplen ts : Nat) (pdata : List Nat),
      ETHER_HDR_LEN ≤ caplen →
      (decode_ether wantPppoe caplen ts pdata).sm.src_mac =
        bytesAt pdata 6 6 ∧
      (decode_ether wantPppoe caplen ts pdata).sm.dst_mac =
        bytesAt pdata 0 6) ∧
    (∀ h : Handler, h ≠ Handler.ether →
      ∀ (wantPppoe : Bool) (caplen ts : Nat) (pdata : List Nat),
      (runDecoder h wantPppoe caplen ts pdata).sm.src_mac =
        List.replicate 6 0 ∧
      (runDecoder h wantPppoe caplen ts pdata).sm.dst_mac =
        List.replicate 6 0) := by
  constructor
  · intro wantPppoe caplen ts pdata hc
    simp only [decode_ether]
    rw [if_neg (Nat.not_lt.mpr hc)]
    constructor
    · split
      · split
        · rfl
        · rw [(decode_ip_preserves _ _ _).2.1]
      · split
        · rfl
        · split
          · split
            · rw [(decode_pppoe_real_shape _ _ _).2.2.2.2.1]
            · rfl
          · rfl
    · split
      · split
        · rfl
        · rw [(decode_ip_preserves _ _ _).2.2]
      · split
        · rfl
        · split
          · split
            · rw [(decode_pppoe_real_shape _ _ _).2.2.2.2.2]
            · rfl
          · rfl
  · intro h hne wantPppoe caplen ts pdata
    cases h
    case ether => exact absurd rfl hne
    case loop =>
      simp only [runDecoder, decode_loop]
      split
      · exact ⟨rfl, rfl⟩
      · split
        · exact ⟨by simp [zeroSummary, (decode_ip_preserves _ _ _).2.1],
            by simp [zeroSummary, (decode_ip_preserves _ _ _).2.2]⟩
        · split
          · exact ⟨by simp [zeroSummary, (decode_ip_preserves _ _ _).2.1],
              by simp [zeroSummary, (decode_ip_preserves _ _ _).2.2]⟩
          · exact ⟨rfl, rfl⟩
    case ppp =>
      simp only [runDecoder, decode_ppp]
      split
      · exact ⟨rfl, rfl⟩
      · split
        · exact ⟨by simp [zeroSummary, (decode_ip_preserves _ _ _).2.1],
            by simp [zeroSummary, (decode_ip_preserves _ _ _).2.2]⟩
        · exact ⟨rfl, rfl⟩
    case pppoe =>
      refine ⟨?_, ?_⟩
      · rw [show (runDecoder Handler.pppoe wantPppoe caplen ts pdata).sm.src_mac
            = ({ zeroSummary with time := ts } : Pktsummary).src_mac from
          (decode_pppoe_real_shape _ _ _).2.2.2.2.1]
        rfl
      · rw [show (runDecoder Handler.pppoe wantPppoe caplen ts pdata).sm.dst_mac
            = ({ zeroSummary with time := ts } : Pktsummary).dst_mac from
          (decode_pppoe_real_shape _ _ _).2.2.2.2.2]
        rfl
    case linux_sll =>
      simp only [runDecoder, decode_linux_sll]
      split
      · exact ⟨rfl, rfl⟩
      · split
        · exact ⟨by simp [zeroSummary, (decode_ip_preserves _ _ _).2.1],
            by simp [zeroSummary, (decode_ip_preserves _ _ _).2.2]⟩
        · split
          · exact ⟨rfl, rfl⟩
          · exact ⟨rfl, rfl⟩
    case raw =>
      simp only [runDecoder, decode_raw]
      exact ⟨by simp [zeroSummary, (decode_ip_preserves _ _ _).2.1],
        by simp [zeroSummary, (decode_ip_preserves _ _ _).2.2]⟩

/-- Witness for the amended C8: a 14-byte Ethernet frame's MAC fields. -/
theorem claim_C8_witness :
    (decode_ether false 14 0
      [1, 2, 3, 4, 5, 6, 7, 8, 9, 10, 11, 12, 8, 6]).sm.src_mac =
      bytesAt [1, 2, 3, 4, 5, 6, 7, 8, 9, 10, 11, 12, 8, 6] 6 6 ∧
    (decode_ether false 14 0
      [1, 2, 3, 4, 5, 6, 7, 8, 9, 10, 11, 12, 8, 6]).sm.dst_mac =
      bytesAt [1, 2, 3, 4, 5, 6, 7, 8, 9, 10, 11, 12, 8, 6] 0 6 :=
  claim_C8_amended.1 false 14 0
    [1, 2, 3, 4, 5, 6, 7, 8, 9, 10, 11, 12, 8, 6] (by decide)

/-- The happy path of the IPv4/TCP chain through decode_ip: version 4, at
least 40 bytes (20 IPv4 + 20 TCP), protocol byte TCP. -/
theorem decode_ip_v4tcp (pdata : List Nat) (len : Nat) (sm : Pktsummary)
    (hv : byteAt pdata 0 / 16 = 4) (hl : 40 ≤ len)
    (hp : byteAt pdata 9 = IPPROTO_TCP) :
    decode_ip pdata len sm =
      ({ sm with
          len := ntohs16 pdata 2
          proto := IPPROTO_TCP
          src := ⟨AddrFamily.IPv4, bytesAt pdata 12 4 ++ sm.src.ip.drop 4⟩
          dst := ⟨AddrFamily.IPv4, bytesAt pdata 16 4 ++ sm.dst.ip.drop 4⟩
          src_port := ntohs16 pdata 20
          dst_port := ntohs16 pdata 22
          tcp_flags := byteAt pdata 33 &&&
            (TH_FIN ||| TH_SYN ||| TH_RST ||| TH_PUSH ||| TH_ACK ||| TH_URG) },
        []) := by
  unfold decode_ip
  rw [if_neg (by rw [hv]; omega),
    if_neg (Nat.not_lt.mpr (show IP_HDR_LEN ≤ len by
      simp only [IP_HDR_LEN]; omega)),
    if_neg (by rw [hv]; simp)]
  unfold decode_ip_payload
  rw [if_pos (show (({ sm with
      len := ntohs16 pdata 2
      proto := byteAt pdata 9
      src := ⟨AddrFamily.IPv4, bytesAt pdata 12 4 ++ sm.src.ip.drop 4⟩
      dst := ⟨AddrFamily.IPv4, bytesAt pdata 16 4 ++ sm.dst.ip.drop 4⟩ } :
        Pktsummary)).proto = IPPROTO_TCP from hp),
    if_neg (Nat.not_lt.mpr (show TCP_HDR_LEN ≤ len - IP_HDR_LEN by
      simp only [TCP_HDR_LEN, IP_HDR_LEN]; omega))]
  simp [hp, ntohs16_drop, byteAt_drop, IP_HDR_LEN]

/-- Claim C5: a well-formed Ethernet IPv4/TCP frame (ethertype 0x0800,
PPPoE mode off, all three headers captured) yields one sink submission
whose summary carries the frame's MACs, the verbatim IPv4 addresses, the
IPv4 total length, the TCP ports, and the flags byte masked to exactly
FIN, SYN, RST, PUSH, ACK and URG. -/
theorem claim_C5 (caplen ts : Nat) (pdata : List Nat)
    (hcap : 54 ≤ caplen)
    (ht : ntohs16 pdata 12 = ETHERTYPE_IP)
    (hv : byteAt pdata 14 / 16 = 4)
    (hp : byteAt pdata 23 = IPPROTO_TCP) :
    (decode_ether false caplen ts pdata).sink =
      [(decode_ether false caplen ts pdata).sm] ∧
    (decode_ether false caplen ts pdata).sm.src_mac = bytesAt pdata 6 6 ∧
    (decode_ether false caplen ts pdata).sm.dst_mac = bytesAt pdata 0 6 ∧
    (decode_ether false caplen ts pdata).sm.src.family = AddrFamily.IPv4 ∧
    (decode_ether false caplen ts pdata).sm.src.ip.take 4 =
      bytesAt pdata 26 4 ∧
    (decode_ether false caplen ts pdata).sm.dst.family = AddrFamily.IPv4 ∧
    (decode_ether false caplen ts pdata).sm.dst.ip.take 4 =
      bytesAt pdata 30 4 ∧
    (decode_ether false caplen ts pdata).sm.len = ntohs16 pdata 16 ∧
    (decode_ether false caplen ts pdata).sm.src_port = ntohs16 pdata 34 ∧
    (decode_ether false caplen ts pdata).sm.dst_port = ntohs16 pdata 36 ∧
    (decode_ether false caplen ts pdata).sm.tcp_flags =
      byteAt pdata 47 &&&
        (TH_FIN ||| TH_SYN ||| TH_RST ||| TH_PUSH ||| TH_ACK ||| TH_URG) := by
  have e1 : decode_ether false caplen ts pdata =
      ⟨(decode_ip (pdata.drop ETHER_HDR_LEN) (caplen - ETHER_HDR_LEN)
          { zeroSummary with
              time := ts
              src_mac := bytesAt pdata 6 6
              dst_mac := bytesAt pdata 0 6 }).1,
        (decode_ip (pdata.drop ETHER_HDR_LEN) (caplen - ETHER_HDR_LEN)
          { zeroSummary with
              time := ts
              src_mac := bytesAt pdata 6 6
              dst_mac := bytesAt pdata 0 6 }).2,
        [(decode_ip (pdata.drop ETHER_HDR_LEN) (caplen - ETHER_HDR_LEN)
          { zeroSummary with
              time := ts
              src_mac := bytesAt pdata 6 6
              dst_mac := bytesAt pdata 0 6 }).1], 1⟩ := by
    simp only [decode_ether]
    rw [if_neg (show ¬ caplen < ETHER_HDR_LEN by
      simp only [ETHER_HDR_LEN]; omega)]
    rw [if_pos (Or.inl ht)]
    rfl
  have h1 : byteAt (pdata.drop ETHER_HDR_LEN) 0 / 16 = 4 := by
    simpa [byteAt_drop, ETHER_HDR_LEN] using hv
  have h2 : 40 ≤ caplen - ETHER_HDR_LEN := by
    simp only [ETHER_HDR_LEN]; omega
  have h3 : byteAt (pdata.drop ETHER_HDR_LEN) 9 = IPPROTO_TCP := by
    simpa [byteAt_drop, ETHER_HDR_LEN] using hp
  rw [e1]
  rw [decode_ip_v4tcp _ _ _ h1 h2 h3]
  simp [ntohs16_drop, byteAt_drop, bytesAt_drop, ETHER_HDR_LEN,
    zeroSummary, zeroAddr, bytesAt, List.take_append_of_le_length]
  constructor <;>
  · intro a _
    congr 1
    omega

/-- A concrete 54-byte Ethernet frame carrying IPv4/TCP: MACs 01..06 and
07..0c, ethertype 0x0800, IPv4 total length 40, protocol TCP, addresses
10.0.0.1 and 10.0.0.2, ports 8080 and 80, raw flag byte 0xff. -/
def etherFrame : List Nat :=
  [1, 2, 3, 4, 5, 6,
   7, 8, 9, 10, 11, 12,
   8, 0,
   69, 0, 0, 40, 0, 0, 0, 0, 64, 6, 0, 0, 10, 0, 0, 1, 10, 0, 0, 2,
   31, 144, 0, 80, 0, 0, 0, 0, 0, 0, 0, 0, 5, 255, 0, 0, 0, 0, 0, 0]

/-- Witness for C5: decoding the concrete frame submits its summary to the
sink exactly once. -/
theorem claim_C5_witness :
    (decode_ether false 54 1234 etherFrame).sink =
      [(decode_ether false 54 1234 etherFrame).sm] :=
  (claim_C5 54 1234 etherFrame (by decide) (by decide) (by decide)
    (by decide)).1

end Darkstat
